import Mathlib

/-!
Shallow embedding of the JNI convenience wrapper implemented in
`src/corelib/kernel/qjniobject.cpp`: the class / method-ID / field-ID lookup
caches, the object-wrapper lifetime, and the exception funnel, together with
proofs about the behaviour described by the design specification.

Modelling conventions:

* A JNI reference (`jobject`, `jclass`) is an `Option Nat`: `none` is the null
  reference, `some i` is a reference to the Java entity with identity `i`.
  `IsSameObject` on this model is equality of identities (in particular two
  null references are "the same object", as in JNI).
* A `jmethodID` / `jfieldID` is an `Option Nat` (`none` is the null ID).
* The JNI environment state visible to the wrapper is the pending-exception
  flag of the thread plus the number of live global references.  Local
  references are created and deleted in balanced pairs inside every modelled
  function, so they are noted in comments but not counted.
* Every call into the Java runtime (`CallXMethodV`, `NewObject`,
  `ClassLoader.loadClass`, `FindClass`, `GetMethodID`, `GetFieldID`, ...) is an
  oracle passed in as a function parameter; each oracle reports the runtime's
  answer together with a flag saying whether the call raised a Java exception.
* A `QHash` is an association list whose `insert` prepends; lookup takes the
  most recent binding, which matches `QHash::insert` replacement semantics.
* `QReadWriteLock` critical sections execute atomically.  The scheduling point
  between the read-locked lookup and the write-locked recheck of the
  double-checked member-ID caches is modelled by an adversarial `race`
  function applied to the cache between the two sections, and the lock and
  cache operations are recorded in an event trace.
-/

namespace QtJni

/-- A JNI object or class reference: `none` is the null reference, `some i`
refers to the Java entity with identity `i`. -/
abbrev JRef : Type := Option Nat

/-- A `jmethodID` or `jfieldID`: `none` is the null ID. -/
abbrev JMemberID : Type := Option Nat

/-- A `QHash<QString, V>` as an association list: `insert` prepends and lookup
returns the most recent binding. -/
abbrev Cache (V : Type) : Type := List (String × V)

/-- `QHash::constFind`: the value bound to `k`, or `none` when `k` is absent. -/
def Cache.find? {V : Type} : Cache V → String → Option V
  | [], _ => none
  | (k0, v) :: rest, k => if k0 = k then some v else Cache.find? rest k

/-- `QHash::insert`: bind `k` to `v` (shadowing any previous binding). -/
def Cache.insert {V : Type} (c : Cache V) (k : String) (v : V) : Cache V :=
  (k, v) :: c

/-- The two cache disciplines the spec demands of every cache operation: it
either leaves the cache unchanged or inserts one entry under a previously
absent key. -/
def insertOnlyStep {V : Type} (c1 c2 : Cache V) : Prop :=
  c2 = c1 ∨ ∃ k v, Cache.find? c1 k = none ∧ c2 = Cache.insert c1 k v

/-- `c2` preserves every entry of `c1` (no entry is mutated or removed). -/
def cacheExtends {V : Type} (c2 c1 : Cache V) : Prop :=
  ∀ k v, Cache.find? c1 k = some v → Cache.find? c2 k = some v

/-- The JNI environment state the wrapper observes: the thread's
pending-exception flag and the number of live global references. -/
structure JniEnv where
  pendingException : Bool := false
  globalRefCount : Nat := 0
deriving Repr, DecidableEq

/-- Modelled from the spec: `QJniEnvironment::checkAndClearExceptions` is
implemented in `qjnienvironment.cpp`, which is not part of the excerpt.  Per
the exception-funnel contract it queries the pending-exception state; if set
it retrieves, logs and clears it and reports `true`, otherwise it reports
`false`. -/
def checkAndClearExceptions (env : JniEnv) : Bool × JniEnv :=
  (env.pendingException, { env with pendingException := false })

/-- `env->NewGlobalRef(r)`: null stays null; a non-null reference yields a new
global reference to the same entity (one more live global reference). -/
def newGlobalRef (env : JniEnv) (r : JRef) : JRef × JniEnv :=
  match r with
  | none => (none, env)
  | some o => (some o, { env with globalRefCount := env.globalRefCount + 1 })

/-- `env->DeleteGlobalRef(r)`: releasing a non-null global reference leaves one
fewer live global reference. -/
def deleteGlobalRef (env : JniEnv) (r : JRef) : JniEnv :=
  match r with
  | none => env
  | some _ => { env with globalRefCount := env.globalRefCount - 1 }

/-- A foreign call that reports it threw leaves the Java exception pending on
the environment. -/
def noteThrown (env : JniEnv) (thrown : Bool) : JniEnv :=
  { env with pendingException := env.pendingException || thrown }

/-- The character rewriting performed by `toBinaryEncClassName`. -/
def binaryEncChar (c : Char) : Char :=
  if c = '/' then '.' else c

/-- `toBinaryEncClassName`: `QByteArray(className).replace('/', '.')`. -/
def toBinaryEncClassName (className : String) : String :=
  ⟨className.data.map binaryEncChar⟩

/-- `getCachedClass`: the read-locked lookup in the global class cache; yields
the found handle (null when absent) and the `isCached` flag. -/
def getCachedClass (cache : Cache JRef) (classBinEnc : String) : JRef × Bool :=
  match Cache.find? cache classBinEnc with
  | some v => (v, true)
  | none => (none, false)

/-- Result of a class lookup: the handle, the updated class cache, the updated
environment, and how many expensive resolution attempts were performed. -/
structure ClassLookupResult where
  clazz : JRef
  cache : Cache JRef
  env : JniEnv
  resolutions : Nat
deriving Repr

/-- `loadClass`: looks the binary-encoded name up in the class cache; on a
miss (and with a usable class loader) it rechecks under the write lock, then
performs the expensive `ClassLoader.loadClass` resolution, funnels any Java
exception, promotes a successful result to a global reference held by the
cache, and inserts the outcome -- null included -- into the cache.

`clOutcome` is the oracle for the
`classLoader.callObjectMethod("loadClass", ...)` invocation; the temporary
`classLoader` and `stringName` wrappers it builds acquire and release balanced
references, so they do not show in `globalRefCount`.  `classLoaderValid` is
the validity of `QtAndroidPrivate::classLoader()`. -/
def loadClass (clOutcome : String → JRef × Bool) (classLoaderValid : Bool)
    (env : JniEnv) (cache : Cache JRef) (className : String) (binEncoded : Bool) :
    ClassLookupResult :=
  let binEncClassName := if binEncoded then className else toBinaryEncClassName className
  let c0 := getCachedClass cache binEncClassName
  if c0.1.isSome || c0.2 then ⟨c0.1, cache, env, 0⟩
  else if !classLoaderValid then ⟨none, cache, env, 0⟩
  else
    match Cache.find? cache binEncClassName with
    | some v => ⟨v, cache, env, 0⟩
    | none =>
      let out := clOutcome binEncClassName
      let env1 := noteThrown env out.2
      let chk := checkAndClearExceptions env1
      let g := if !chk.1 && out.1.isSome then newGlobalRef chk.2 out.1 else (none, chk.2)
      ⟨g.1, Cache.insert cache binEncClassName g.1, g.2, 1⟩

/-- The write-locked `env->FindClass` attempt inside
`QtAndroidPrivate::findClass`: the raw call with the caller's verbatim name,
the exception funnel, and the promotion of the local result to a global
reference (the `FindClass` local reference is deleted after promotion). -/
def findClassEnvAttempt (fcOutcome : String → JRef × Bool) (env : JniEnv)
    (className : String) : JRef × JniEnv :=
  let out := fcOutcome className
  let env1 := noteThrown env out.2
  let chk := checkAndClearExceptions env1
  if !chk.1 then newGlobalRef chk.2 out.1 else (none, chk.2)

/-- `QtAndroidPrivate::findClass`: dot-normalises the name and consults the
class cache; on a miss, when an environment pointer was supplied, it rechecks
under the write lock and tries `env->FindClass` with the caller's verbatim
name (caching only a successful result), and otherwise -- or when that
attempt produced no class -- falls back to `loadClass` on the binary-encoded
name.  `fcOutcome` is the `env->FindClass` oracle. -/
def findClass (fcOutcome : String → JRef × Bool) (clOutcome : String → JRef × Bool)
    (classLoaderValid : Bool) (hasEnv : Bool)
    (env : JniEnv) (cache : Cache JRef) (className : String) : ClassLookupResult :=
  let classDotEnc := toBinaryEncClassName className
  let c0 := getCachedClass cache classDotEnc
  if c0.1.isSome || c0.2 then ⟨c0.1, cache, env, 0⟩
  else if hasEnv then
    match Cache.find? cache classDotEnc with
    | some v => ⟨v, cache, env, 0⟩
    | none =>
      let g := findClassEnvAttempt fcOutcome env className
      if g.1.isSome then ⟨g.1, Cache.insert cache classDotEnc g.1, g.2, 1⟩
      else
        let r := loadClass clOutcome classLoaderValid g.2 cache classDotEnc true
        ⟨r.clazz, r.cache, r.env, 1 + r.resolutions⟩
  else
    loadClass clOutcome classLoaderValid env cache classDotEnc true

/-- Lock and cache events recorded by the double-checked member-ID caches. -/
inductive LockEvent where
  | lockShared
  | unlockShared
  | lockExclusive
  | unlockExclusive
  | resolveMember
  | insertEntry
deriving Repr, DecidableEq, BEq

/-- `keyBase()`: the Qt format string for member-cache keys. -/
def keyBase : String := "%1%2:%3"

/-- `keyBase().arg(className, name, signature)`: substituting the three
placeholders of `"%1%2:%3"` yields `className ++ name ++ ":" ++ signature`. -/
def memberKey (className name signature : String) : String :=
  className ++ name ++ ":" ++ signature

/-- `getMethodID`: the raw `GetMethodID` / `GetStaticMethodID` call (the
oracle `resolveRaw`), followed by the exception funnel; a resolution that
threw yields the null ID. -/
def getMethodID (resolveRaw : Bool → JRef → String → String → JMemberID × Bool)
    (env : JniEnv) (clazz : JRef) (name signature : String) (isStatic : Bool) :
    JMemberID × JniEnv :=
  let out := resolveRaw isStatic clazz name signature
  let env1 := noteThrown env out.2
  let chk := checkAndClearExceptions env1
  (if chk.1 then none else out.1, chk.2)

/-- `getFieldID`: the raw `GetFieldID` / `GetStaticFieldID` call followed by
the exception funnel; a resolution that threw yields the null ID. -/
def getFieldID (resolveRaw : Bool → JRef → String → String → JMemberID × Bool)
    (env : JniEnv) (clazz : JRef) (name signature : String) (isStatic : Bool) :
    JMemberID × JniEnv :=
  let out := resolveRaw isStatic clazz name signature
  let env1 := noteThrown env out.2
  let chk := checkAndClearExceptions env1
  (if chk.1 then none else out.1, chk.2)

/-- Result of a member-ID lookup: the ID, the updated cache, the updated
environment, and the trace of lock and cache events. -/
structure MemberLookupResult where
  id : JMemberID
  cache : Cache JMemberID
  env : JniEnv
  events : List LockEvent
deriving Repr

/-- `getCachedMethodID`: with an empty class name the cache is bypassed (the
C++ guard is `className.isEmpty()`); otherwise the key is looked up under the
shared lock, rechecked under the exclusive lock -- the `race` parameter is
whatever concurrent writers did to the cache between the two critical
sections -- and only on a genuine miss is the resolution performed, its
outcome (null included) being inserted under the key. -/
def getCachedMethodID (resolveRaw : Bool → JRef → String → String → JMemberID × Bool)
    (race : Cache JMemberID → Cache JMemberID)
    (env : JniEnv) (cache : Cache JMemberID) (clazz : JRef)
    (className name signature : String) (isStatic : Bool) : MemberLookupResult :=
  if className = "" then
    let r := getMethodID resolveRaw env clazz name signature isStatic
    ⟨r.1, cache, r.2, [.resolveMember]⟩
  else
    match Cache.find? cache (memberKey className name signature) with
    | some v => ⟨v, cache, env, [.lockShared, .unlockShared]⟩
    | none =>
      let cache2 := race cache
      match Cache.find? cache2 (memberKey className name signature) with
      | some v =>
          ⟨v, cache2, env, [.lockShared, .unlockShared, .lockExclusive, .unlockExclusive]⟩
      | none =>
          let r := getMethodID resolveRaw env clazz name signature isStatic
          ⟨r.1, Cache.insert cache2 (memberKey className name signature) r.1, r.2,
            [.lockShared, .unlockShared, .lockExclusive, .resolveMember, .insertEntry,
              .unlockExclusive]⟩

/-- `getCachedFieldID`: same double-checked discipline over the field-ID
cache.  The C++ guard is `className.isNull()`; a Qt null byte array is in
particular empty, and every cached call site passes a non-empty class name, so
the guard is modelled as emptiness like the method cache's. -/
def getCachedFieldID (resolveRaw : Bool → JRef → String → String → JMemberID × Bool)
    (race : Cache JMemberID → Cache JMemberID)
    (env : JniEnv) (cache : Cache JMemberID) (clazz : JRef)
    (className name signature : String) (isStatic : Bool) : MemberLookupResult :=
  if className = "" then
    let r := getFieldID resolveRaw env clazz name signature isStatic
    ⟨r.1, cache, r.2, [.resolveMember]⟩
  else
    match Cache.find? cache (memberKey className name signature) with
    | some v => ⟨v, cache, env, [.lockShared, .unlockShared]⟩
    | none =>
      let cache2 := race cache
      match Cache.find? cache2 (memberKey className name signature) with
      | some v =>
          ⟨v, cache2, env, [.lockShared, .unlockShared, .lockExclusive, .unlockExclusive]⟩
      | none =>
          let r := getFieldID resolveRaw env clazz name signature isStatic
          ⟨r.1, Cache.insert cache2 (memberKey className name signature) r.1, r.2,
            [.lockShared, .unlockShared, .lockExclusive, .resolveMember, .insertEntry,
              .unlockExclusive]⟩

/-- `loadClass` with its concurrency structure made explicit: the same code
as `loadClass`, with the read-locked `getCachedClass` lookup and the
write-locked recheck-resolve-insert section recorded in an event trace, and
with `race` -- what concurrent insert-only writers did to the class cache
between the two critical sections -- applied before the recheck.  With
`race = id` (no interference) it is exactly `loadClass`. -/
def loadClassTraced (clOutcome : String → JRef × Bool) (classLoaderValid : Bool)
    (race : Cache JRef → Cache JRef)
    (env : JniEnv) (cache : Cache JRef) (className : String) (binEncoded : Bool) :
    ClassLookupResult × List LockEvent :=
  let binEncClassName := if binEncoded then className else toBinaryEncClassName className
  let c0 := getCachedClass cache binEncClassName
  if c0.1.isSome || c0.2 then (⟨c0.1, cache, env, 0⟩, [.lockShared, .unlockShared])
  else if !classLoaderValid then (⟨none, cache, env, 0⟩, [.lockShared, .unlockShared])
  else
    let cache2 := race cache
    match Cache.find? cache2 binEncClassName with
    | some v =>
        (⟨v, cache2, env, 0⟩,
          [.lockShared, .unlockShared, .lockExclusive, .unlockExclusive])
    | none =>
      let out := clOutcome binEncClassName
      let env1 := noteThrown env out.2
      let chk := checkAndClearExceptions env1
      let g := if !chk.1 && out.1.isSome then newGlobalRef chk.2 out.1 else (none, chk.2)
      (⟨g.1, Cache.insert cache2 binEncClassName g.1, g.2, 1⟩,
        [.lockShared, .unlockShared, .lockExclusive, .resolveMember, .insertEntry,
          .unlockExclusive])

/-- `QtAndroidPrivate::findClass` with its concurrency structure made
explicit: the read-locked `getCachedClass` lookup, then -- with an
environment pointer -- the write-locked recheck and `FindClass` attempt
(`race1` is what concurrent writers did before that section; only a
successful result is inserted, inside the same exclusive section), and the
`loadClass` fallback, which runs after the write lock is released and takes
the locks again (`race2` is its interleaving point).  With
`race1 = race2 = id` its result is exactly `findClass`. -/
def findClassTraced (fcOutcome : String → JRef × Bool) (clOutcome : String → JRef × Bool)
    (classLoaderValid : Bool) (hasEnv : Bool)
    (race1 race2 : Cache JRef → Cache JRef)
    (env : JniEnv) (cache : Cache JRef) (className : String) :
    ClassLookupResult × List LockEvent :=
  let classDotEnc := toBinaryEncClassName className
  let c0 := getCachedClass cache classDotEnc
  if c0.1.isSome || c0.2 then (⟨c0.1, cache, env, 0⟩, [.lockShared, .unlockShared])
  else if hasEnv then
    let cache1 := race1 cache
    match Cache.find? cache1 classDotEnc with
    | some v =>
        (⟨v, cache1, env, 0⟩,
          [.lockShared, .unlockShared, .lockExclusive, .unlockExclusive])
    | none =>
      let g := findClassEnvAttempt fcOutcome env className
      if g.1.isSome then
        (⟨g.1, Cache.insert cache1 classDotEnc g.1, g.2, 1⟩,
          [.lockShared, .unlockShared, .lockExclusive, .resolveMember, .insertEntry,
            .unlockExclusive])
      else
        let r := loadClassTraced clOutcome classLoaderValid race2 g.2 cache1 classDotEnc true
        (⟨r.1.clazz, r.1.cache, r.1.env, 1 + r.1.resolutions⟩,
          [.lockShared, .unlockShared, .lockExclusive, .resolveMember, .unlockExclusive]
            ++ r.2)
  else
    loadClassTraced clOutcome classLoaderValid race2 env cache classDotEnc true

/-- `QJniObjectPrivate`: the wrapper's state (field defaults as in the class
declaration). -/
structure QJniObjectPrivate where
  m_jobject : JRef := none
  m_jclass : JRef := none
  m_own_jclass : Bool := true
  m_className : String := ""
deriving Repr, DecidableEq

/-- The destructor `~QJniObjectPrivate`: deletes the object's global reference
when one is held, and the class's global reference when one is held and
owned. -/
def QJniObjectPrivate.destruct (d : QJniObjectPrivate) (env : JniEnv) : JniEnv :=
  let env1 := if d.m_jobject.isSome then deleteGlobalRef env d.m_jobject else env
  if d.m_jclass.isSome && d.m_own_jclass then deleteGlobalRef env1 d.m_jclass else env1

/-- `QJniObject::isValid`: `return d->m_jobject;`. -/
def QJniObjectPrivate.isValid (d : QJniObjectPrivate) : Bool :=
  d.m_jobject.isSome

/-- Number of strong (global) references the wrapper itself retains ownership
of: its object reference, plus its class reference when `m_own_jclass`. -/
def wrapperRetainedRefs (d : QJniObjectPrivate) : Nat :=
  (if d.m_jobject.isSome then 1 else 0) + (if d.m_jclass.isSome && d.m_own_jclass then 1 else 0)

/-- Number of strong references held by the class cache itself: one per
non-null cached class handle. -/
def cacheHeldRefs : Cache JRef → Nat
  | [] => 0
  | (_, v) :: rest => (if v.isSome then 1 else 0) + cacheHeldRefs rest

/-- `QJniObject::QJniObject(jobject)`: a null argument leaves the fresh
private untouched (early return); otherwise the object is promoted to a
global reference, and its class (`GetObjectClass`, a local reference that is
deleted again) is promoted to an owned global reference.  `classOf` is the
oracle giving each object's class identity. -/
def fromJObject (classOf : Nat → Nat) (env : JniEnv) (obj : JRef) :
    QJniObjectPrivate × JniEnv :=
  match obj with
  | none => (({} : QJniObjectPrivate), env)
  | some o =>
    let g1 := newGlobalRef env obj
    let g2 := newGlobalRef g1.2 (some (classOf o))
    ({ m_jobject := g1.1, m_jclass := g2.1, m_own_jclass := true, m_className := "" }, g2.2)

/-- `QJniObject::fromLocalRef`: wraps the reference as `QJniObject(jobject)`
does, then deletes the local reference (`DeleteLocalRef`, a no-op here since
local references are not counted) before returning. -/
def fromLocalRef (classOf : Nat → Nat) (env : JniEnv) (lref : JRef) :
    QJniObjectPrivate × JniEnv :=
  fromJObject classOf env lref

/-- `getCleanJniObject`: a null result returns the invalid wrapper at once --
before consulting the pending-exception state; a non-null result first runs
the exception funnel (discarding the result when an exception was pending)
and otherwise wraps it, the local reference being deleted either way. -/
def getCleanJniObject (classOf : Nat → Nat) (env : JniEnv) (obj : JRef) :
    QJniObjectPrivate × JniEnv :=
  match obj with
  | none => (({} : QJniObjectPrivate), env)
  | some _ =>
    let chk := checkAndClearExceptions env
    if chk.1 then (({} : QJniObjectPrivate), chk.2)
    else fromJObject classOf chk.2 obj

/-- `env->IsSameObject` on the model: two references are the same when they
denote the same identity; in particular two null references are the same. -/
def isSameObject (a b : JRef) : Bool :=
  a == b

/-- `QJniObject::assign`: the identity check fires first, and on identity
nothing at all happens.  Otherwise the private is replaced by a fresh one --
the old one (this model takes the wrapper to be the sole owner of its shared
private) is destroyed, releasing its references -- and, for a non-null
argument, object and class are promoted to owned global references. -/
def assign (classOf : Nat → Nat) (d : QJniObjectPrivate) (env : JniEnv) (obj : JRef) :
    QJniObjectPrivate × JniEnv :=
  if isSameObject d.m_jobject obj then (d, env)
  else
    let env1 := d.destruct env
    match obj with
    | none => (({} : QJniObjectPrivate), env1)
    | some o =>
      let g1 := newGlobalRef env1 obj
      let g2 := newGlobalRef g1.2 (some (classOf o))
      ({ m_jobject := g1.1, m_jclass := g2.1, m_own_jclass := true, m_className := "" }, g2.2)

/-- Result of a construction: the new private, the environment, and the two
global caches. -/
structure CtorResult where
  d : QJniObjectPrivate
  env : JniEnv
  classCache : Cache JRef
  methodCache : Cache JMemberID
deriving Repr

/-- `QJniObject::QJniObject(const char *className)`: binary-encodes the name,
loads the class through the shared class cache (so the class reference is not
owned: `m_own_jclass = false`), resolves the default constructor through the
method-ID cache, and invokes `NewObject` (`newObjectOutcome`: the local object
reference plus the thrown flag); a non-null object is promoted to a global
reference and the local reference deleted.  Note that the `NewObject`
invocation is not followed by the exception funnel. -/
def ctorFromClassName (clOutcome : String → JRef × Bool) (classLoaderValid : Bool)
    (resolveRaw : Bool → JRef → String → String → JMemberID × Bool)
    (newObjectOutcome : JRef × Bool)
    (env : JniEnv) (classCache : Cache JRef) (methodCache : Cache JMemberID)
    (className : String) : CtorResult :=
  let binName := toBinaryEncClassName className
  let r := loadClass clOutcome classLoaderValid env classCache binName true
  let d0 : QJniObjectPrivate :=
    { m_jobject := none, m_jclass := r.clazz, m_own_jclass := false, m_className := binName }
  if r.clazz.isSome then
    let m := getCachedMethodID resolveRaw id r.env methodCache r.clazz binName "<init>" "()V" false
    if m.id.isSome then
      let env1 := noteThrown m.env newObjectOutcome.2
      match newObjectOutcome.1 with
      | none => ⟨d0, env1, r.cache, m.cache⟩
      | some _ =>
        let g := newGlobalRef env1 newObjectOutcome.1
        ⟨{ d0 with m_jobject := g.1 }, g.2, r.cache, m.cache⟩
    else ⟨d0, m.env, r.cache, m.cache⟩
  else ⟨d0, r.env, r.cache, methodCache⟩

/-- The eight JNI primitive types covered by the per-type boilerplate
macros. -/
inductive PrimType where
  | jboolean
  | jbyte
  | jchar
  | jshort
  | jint
  | jlong
  | jfloat
  | jdouble
deriving Repr, DecidableEq

/-- The no-argument method signatures instantiated by the
`DECLARE_JNI_METHODS(MethodName, Type, Signature)` lines. -/
def methodNoArgSignature : PrimType → String
  | .jboolean => "()Z"
  | .jbyte => "()B"
  | .jchar => "()C"
  | .jshort => "()S"
  | .jint => "()I"
  | .jlong => "()J"
  | .jfloat => "()F"
  | .jdouble => "()D"

/-- The field signatures instantiated by the
`DECLARE_JNI_PRIMITIVE_FIELDS(FieldName, Type, Signature)` lines. -/
def fieldSignature : PrimType → String
  | .jboolean => "Z"
  | .jbyte => "B"
  | .jchar => "C"
  | .jshort => "S"
  | .jint => "I"
  | .jlong => "J"
  | .jfloat => "F"
  | .jdouble => "D"

/-- Modelled from the spec: the canonical single-letter primitive codes of the
foreign runtime's descriptor grammar ("primitive single-letter codes"), as
also documented in the JNI Types table of the class documentation. -/
def specPrimitiveDescriptor : PrimType → String
  | .jboolean => "Z"
  | .jbyte => "B"
  | .jchar => "C"
  | .jshort => "S"
  | .jint => "I"
  | .jlong => "J"
  | .jfloat => "F"
  | .jdouble => "D"

/-- `QJniObject::callMethod<Type>(methodName, signature, ...)`: the body the
`MAKE_JNI_METHODS` macro generates for each primitive `Type`.  Primitive
values are carried opaquely as `Int` (the wrapper never computes with them,
it only forwards them or substitutes the zero sentinel); `callOutcome` is the
`Call<MethodName>MethodV` oracle, keyed by the type and the resolved method
ID. -/
def callMethodPrim (t : PrimType)
    (resolveRaw : Bool → JRef → String → String → JMemberID × Bool)
    (callOutcome : PrimType → Nat → Int × Bool)
    (d : QJniObjectPrivate) (env : JniEnv) (methodCache : Cache JMemberID)
    (methodName signature : String) : Int × JniEnv × Cache JMemberID :=
  let m := getCachedMethodID resolveRaw id env methodCache d.m_jclass d.m_className
      methodName signature false
  match m.id with
  | none => (0, m.env, m.cache)
  | some mid =>
    let out := callOutcome t mid
    let env1 := noteThrown m.env out.2
    let chk := checkAndClearExceptions env1
    (if chk.1 then 0 else out.1, chk.2, m.cache)

/-- `QJniObject::callMethod<Type>(methodName)`: delegates to the
explicit-signature overload at the macro's `Signature`. -/
def callMethodPrimNoArg (t : PrimType)
    (resolveRaw : Bool → JRef → String → String → JMemberID × Bool)
    (callOutcome : PrimType → Nat → Int × Bool)
    (d : QJniObjectPrivate) (env : JniEnv) (methodCache : Cache JMemberID)
    (methodName : String) : Int × JniEnv × Cache JMemberID :=
  callMethodPrim t resolveRaw callOutcome d env methodCache methodName
    (methodNoArgSignature t)

/-- `QJniObject::callStaticMethod<Type>(className, methodName, signature, ...)`:
the static-call body the `MAKE_JNI_METHODS` macro generates. -/
def callStaticMethodPrim (t : PrimType) (clOutcome : String → JRef × Bool)
    (classLoaderValid : Bool)
    (resolveRaw : Bool → JRef → String → String → JMemberID × Bool)
    (callOutcome : PrimType → Nat → Int × Bool)
    (env : JniEnv) (classCache : Cache JRef) (methodCache : Cache JMemberID)
    (className methodName signature : String) :
    Int × JniEnv × Cache JRef × Cache JMemberID :=
  let r := loadClass clOutcome classLoaderValid env classCache className false
  match r.clazz with
  | none => (0, r.env, r.cache, methodCache)
  | some _ =>
    let m := getCachedMethodID resolveRaw id r.env methodCache r.clazz
        (toBinaryEncClassName className) methodName signature true
    match m.id with
    | none => (0, m.env, r.cache, m.cache)
    | some mid =>
      let out := callOutcome t mid
      let env1 := noteThrown m.env out.2
      let chk := checkAndClearExceptions env1
      (if chk.1 then 0 else out.1, chk.2, r.cache, m.cache)

/-- `QJniObject::callStaticMethod<Type>(className, methodName)`: delegates to
the explicit-signature overload at the macro's `Signature`. -/
def callStaticMethodPrimNoArg (t : PrimType) (clOutcome : String → JRef × Bool)
    (classLoaderValid : Bool)
    (resolveRaw : Bool → JRef → String → String → JMemberID × Bool)
    (callOutcome : PrimType → Nat → Int × Bool)
    (env : JniEnv) (classCache : Cache JRef) (methodCache : Cache JMemberID)
    (className methodName : String) :
    Int × JniEnv × Cache JRef × Cache JMemberID :=
  callStaticMethodPrim t clOutcome classLoaderValid resolveRaw callOutcome env
    classCache methodCache className methodName (methodNoArgSignature t)

/-- The body shape `MAKE_JNI_PRIMITIVE_FIELDS` generates for
`QJniObject::getField<Type>(fieldName)`, with the signature the macro
instantiates left as a parameter; `getOutcome` is the `Get<FieldName>Field`
oracle. -/
def getFieldPrimSig (t : PrimType)
    (resolveRaw : Bool → JRef → String → String → JMemberID × Bool)
    (getOutcome : PrimType → Nat → Int × Bool)
    (d : QJniObjectPrivate) (env : JniEnv) (fieldCache : Cache JMemberID)
    (fieldName signature : String) : Int × JniEnv × Cache JMemberID :=
  let f := getCachedFieldID resolveRaw id env fieldCache d.m_jclass d.m_className
      fieldName signature false
  match f.id with
  | none => (0, f.env, f.cache)
  | some fid =>
    let out := getOutcome t fid
    let env1 := noteThrown f.env out.2
    let chk := checkAndClearExceptions env1
    (if chk.1 then 0 else out.1, chk.2, f.cache)

/-- `QJniObject::getField<Type>(fieldName)`: the macro instantiates the shared
body at the literal field `Signature` of `Type`. -/
def getFieldPrim (t : PrimType)
    (resolveRaw : Bool → JRef → String → String → JMemberID × Bool)
    (getOutcome : PrimType → Nat → Int × Bool)
    (d : QJniObjectPrivate) (env : JniEnv) (fieldCache : Cache JMemberID)
    (fieldName : String) : Int × JniEnv × Cache JMemberID :=
  getFieldPrimSig t resolveRaw getOutcome d env fieldCache fieldName (fieldSignature t)

/-- The body shape `MAKE_JNI_PRIMITIVE_FIELDS` generates for
`QJniObject::getStaticField<Type>(className, fieldName)`, with the signature
left as a parameter. -/
def getStaticFieldPrimSig (t : PrimType) (clOutcome : String → JRef × Bool)
    (classLoaderValid : Bool)
    (resolveRaw : Bool → JRef → String → String → JMemberID × Bool)
    (getOutcome : PrimType → Nat → Int × Bool)
    (env : JniEnv) (classCache : Cache JRef) (fieldCache : Cache JMemberID)
    (className fieldName signature : String) :
    Int × JniEnv × Cache JRef × Cache JMemberID :=
  let r := loadClass clOutcome classLoaderValid env classCache className false
  match r.clazz with
  | none => (0, r.env, r.cache, fieldCache)
  | some _ =>
    let f := getCachedFieldID resolveRaw id r.env fieldCache r.clazz
        (toBinaryEncClassName className) fieldName signature true
    match f.id with
    | none => (0, f.env, r.cache, f.cache)
    | some fid =>
      let out := getOutcome t fid
      let env1 := noteThrown f.env out.2
      let chk := checkAndClearExceptions env1
      (if chk.1 then 0 else out.1, chk.2, r.cache, f.cache)

/-- `QJniObject::getStaticField<Type>(className, fieldName)`: the macro
instantiates the shared body at the literal field `Signature` of `Type`. -/
def getStaticFieldPrim (t : PrimType) (clOutcome : String → JRef × Bool)
    (classLoaderValid : Bool)
    (resolveRaw : Bool → JRef → String → String → JMemberID × Bool)
    (getOutcome : PrimType → Nat → Int × Bool)
    (env : JniEnv) (classCache : Cache JRef) (fieldCache : Cache JMemberID)
    (className fieldName : String) :
    Int × JniEnv × Cache JRef × Cache JMemberID :=
  getStaticFieldPrimSig t clOutcome classLoaderValid resolveRaw getOutcome env
    classCache fieldCache className fieldName (fieldSignature t)

/-- The body shape `MAKE_JNI_PRIMITIVE_FIELDS` generates for
`QJniObject::setField<Type>(fieldName, value)`, with the signature left as a
parameter; `setThrew` says whether the `Set<FieldName>Field` store raised. -/
def setFieldPrimSig (t : PrimType)
    (resolveRaw : Bool → JRef → String → String → JMemberID × Bool)
    (setThrew : PrimType → Nat → Int → Bool)
    (d : QJniObjectPrivate) (env : JniEnv) (fieldCache : Cache JMemberID)
    (fieldName : String) (value : Int) (signature : String) :
    JniEnv × Cache JMemberID :=
  let f := getCachedFieldID resolveRaw id env fieldCache d.m_jclass d.m_className
      fieldName signature false
  match f.id with
  | none => (f.env, f.cache)
  | some fid =>
    let env1 := noteThrown f.env (setThrew t fid value)
    let chk := checkAndClearExceptions env1
    (chk.2, f.cache)

/-- `QJniObject::setField<Type>(fieldName, value)`: the macro instantiates the
shared body at the literal field `Signature` of `Type`. -/
def setFieldPrim (t : PrimType)
    (resolveRaw : Bool → JRef → String → String → JMemberID × Bool)
    (setThrew : PrimType → Nat → Int → Bool)
    (d : QJniObjectPrivate) (env : JniEnv) (fieldCache : Cache JMemberID)
    (fieldName : String) (value : Int) : JniEnv × Cache JMemberID :=
  setFieldPrimSig t resolveRaw setThrew d env fieldCache fieldName value (fieldSignature t)

/-- The body shape `MAKE_JNI_PRIMITIVE_FIELDS` generates for
`QJniObject::setStaticField<Type>(className, fieldName, value)`, with the
signature left as a parameter.  Here the cache key uses the verbatim
`className` (this call site does not binary-encode it). -/
def setStaticFieldPrimSig (t : PrimType) (clOutcome : String → JRef × Bool)
    (classLoaderValid : Bool)
    (resolveRaw : Bool → JRef → String → String → JMemberID × Bool)
    (setThrew : PrimType → Nat → Int → Bool)
    (env : JniEnv) (classCache : Cache JRef) (fieldCache : Cache JMemberID)
    (className fieldName : String) (value : Int) (signature : String) :
    JniEnv × Cache JRef × Cache JMemberID :=
  let r := loadClass clOutcome classLoaderValid env classCache className false
  match r.clazz with
  | none => (r.env, r.cache, fieldCache)
  | some _ =>
    let f := getCachedFieldID resolveRaw id r.env fieldCache r.clazz className
        fieldName signature true
    match f.id with
    | none => (f.env, r.cache, f.cache)
    | some fid =>
      let env1 := noteThrown f.env (setThrew t fid value)
      let chk := checkAndClearExceptions env1
      (chk.2, r.cache, f.cache)

/-- `QJniObject::setStaticField<Type>(className, fieldName, value)`: the macro
instantiates the shared body at the literal field `Signature` of `Type`. -/
def setStaticFieldPrim (t : PrimType) (clOutcome : String → JRef × Bool)
    (classLoaderValid : Bool)
    (resolveRaw : Bool → JRef → String → String → JMemberID × Bool)
    (setThrew : PrimType → Nat → Int → Bool)
    (env : JniEnv) (classCache : Cache JRef) (fieldCache : Cache JMemberID)
    (className fieldName : String) (value : Int) :
    JniEnv × Cache JRef × Cache JMemberID :=
  setStaticFieldPrimSig t clOutcome classLoaderValid resolveRaw setThrew env
    classCache fieldCache className fieldName value (fieldSignature t)

/-- A concrete run of `QJniObject::QJniObject(const char *)` in which class
and constructor ID are already cached and the Java default constructor throws
(`NewObject` reports a thrown exception and returns the null local
reference). -/
def throwingCtorRun : CtorResult :=
  ctorFromClassName (fun _ => (none, false)) true (fun _ _ _ _ => (none, false))
    (none, true) {} [("my.Class", some 7)]
    [(memberKey "my.Class" "<init>" "()V", some 3)] "my/Class"

theorem Cache.find_insert_self {V : Type} (c : Cache V) (k : String) (v : V) :
    Cache.find? (Cache.insert c k v) k = some v := by
  simp [Cache.insert, Cache.find?]

theorem Cache.find_insert_ne {V : Type} (c : Cache V) (k k0 : String) (v : V)
    (h : k ≠ k0) : Cache.find? (Cache.insert c k v) k0 = Cache.find? c k0 := by
  simp [Cache.insert, Cache.find?, h]

theorem cacheExtends_of_insertOnlyStep {V : Type} {c1 c2 : Cache V}
    (h : insertOnlyStep c1 c2) : cacheExtends c2 c1 := by
  rcases h with rfl | ⟨k, v, hnone, rfl⟩
  · intro k0 v0 h0
    exact h0
  · intro k0 v0 h0
    rcases eq_or_ne k k0 with rfl | hne
    · rw [hnone] at h0
      cases h0
    · rw [Cache.find_insert_ne _ _ _ _ hne]
      exact h0

theorem binaryEncChar_idem (c : Char) :
    binaryEncChar (binaryEncChar c) = binaryEncChar c := by
  unfold binaryEncChar
  by_cases h : c = '/'
  · simp [h]
  · simp [h]

theorem mapBinaryEncChar_idem (l : List Char) :
    (l.map binaryEncChar).map binaryEncChar = l.map binaryEncChar := by
  induction l with
  | nil => rfl
  | cons c cs ih => simp [ih, binaryEncChar_idem]

theorem toBinaryEncClassName_idem (s : String) :
    toBinaryEncClassName (toBinaryEncClassName s) = toBinaryEncClassName s :=
  congrArg String.mk (mapBinaryEncChar_idem s.data)

/-- Claim C1: the claim that every wrapper operation that calls into the Java
runtime clears the pending-exception state before returning fails on the
constructors: `QJniObject(const char *)` invokes `NewObject` without running
the exception funnel afterwards, so a throwing Java constructor leaves the
exception pending on return (the wrapper itself is the invalid sentinel); and
`getCleanJniObject` returns its early null branch before consulting the
pending-exception state, so an object-returning call that raised and returned
null also leaves the exception pending. -/
theorem claim_C1_exception_left_pending :
    throwingCtorRun.env.pendingException = true ∧
    throwingCtorRun.d.isValid = false ∧
    (getCleanJniObject (fun o => o)
        { pendingException := true, globalRefCount := 0 } none).2.pendingException = true := by
  refine ⟨by decide, by decide, by decide⟩

/-- Claim C6: re-assigning a wrapper to the very object it already holds is a
no-op: the identity check fires before any release or rebind, so the
wrapper's state and the environment (global-reference count, exception state)
are returned entirely unchanged. -/
theorem claim_C6_assign_same_object_noop
    (classOf : Nat → Nat) (d : QJniObjectPrivate) (env : JniEnv) (obj : JRef)
    (h : isSameObject d.m_jobject obj = true) :
    assign classOf d env obj = (d, env) := by
  simp [assign, h]

/-- Witness for claim C6 at a concrete wrapper and handle. -/
theorem claim_C6_witness :
    assign (fun o => o + 100)
        { m_jobject := some 5, m_jclass := some 7, m_own_jclass := true,
          m_className := "java.lang.Object" }
        { pendingException := false, globalRefCount := 2 } (some 5)
      = ({ m_jobject := some 5, m_jclass := some 7, m_own_jclass := true,
           m_className := "java.lang.Object" },
         { pendingException := false, globalRefCount := 2 }) :=
  claim_C6_assign_same_object_noop (fun o => o + 100) _ _ _ (by decide)

/-- Claim C9: class-name resolution replaces every slash by a dot before the
cache lookup: the normalisation is idempotent, `loadClass` behaves
identically on the slash-separated and the dot-separated form of a name, and
`QtAndroidPrivate::findClass` consults the same cache entry for both forms
(returning the cached handle for either). -/
theorem claim_C9_binary_name_normalisation :
    (∀ s, toBinaryEncClassName (toBinaryEncClassName s) = toBinaryEncClassName s) ∧
    (∀ clO clv env cache s,
      loadClass clO clv env cache s false
        = loadClass clO clv env cache (toBinaryEncClassName s) false) ∧
    (∀ fc clO clv he env cache s v,
      Cache.find? cache (toBinaryEncClassName s) = some v →
        findClass fc clO clv he env cache s = ⟨v, cache, env, 0⟩ ∧
        findClass fc clO clv he env cache (toBinaryEncClassName s)
          = ⟨v, cache, env, 0⟩) := by
  refine ⟨toBinaryEncClassName_idem, ?_, ?_⟩
  · intro clO clv env cache s
    simp only [loadClass, toBinaryEncClassName_idem, if_false, Bool.false_eq_true]
  · intro fc clO clv he env cache s v h
    constructor
    · simp [findClass, getCachedClass, h]
    · simp [findClass, getCachedClass, toBinaryEncClassName_idem, h]

/-- Witness for claim C9: both name forms hit the one cached entry. -/
theorem claim_C9_witness :
    findClass (fun _ => (none, false)) (fun _ => (none, false)) true true
        { pendingException := false, globalRefCount := 1 }
        [("java.lang.String", some 11)] "java/lang/String"
      = ⟨some 11, [("java.lang.String", some 11)],
          { pendingException := false, globalRefCount := 1 }, 0⟩ ∧
    findClass (fun _ => (none, false)) (fun _ => (none, false)) true true
        { pendingException := false, globalRefCount := 1 }
        [("java.lang.String", some 11)] "java.lang.String"
      = ⟨some 11, [("java.lang.String", some 11)],
          { pendingException := false, globalRefCount := 1 }, 0⟩ := by
  have h := claim_C9_binary_name_normalisation.2.2 (fun _ => (none, false))
    (fun _ => (none, false)) true true
    { pendingException := false, globalRefCount := 1 }
    [("java.lang.String", some 11)] "java/lang/String" (some 11) (by decide)
  refine ⟨h.1, ?_⟩
  have h2 := h.2
  rwa [show toBinaryEncClassName "java/lang/String" = "java.lang.String" from by decide] at h2

/-- Claim C10: constructing a wrapper from a null handle -- via
`QJniObject(jobject)` or `fromLocalRef(nullptr)` -- yields an invalid
wrapper, acquires no strong object or class reference (the environment is
unchanged), and destroying it releases nothing. -/
theorem claim_C10_null_ctor_invalid (classOf : Nat → Nat) (env : JniEnv) :
    fromJObject classOf env none = (({} : QJniObjectPrivate), env) ∧
    ((fromJObject classOf env none).1).isValid = false ∧
    QJniObjectPrivate.destruct (fromJObject classOf env none).1 env = env ∧
    fromLocalRef classOf env none = (({} : QJniObjectPrivate), env) ∧
    ((fromLocalRef classOf env none).1).isValid = false ∧
    QJniObjectPrivate.destruct (fromLocalRef classOf env none).1 env = env := by
  refine ⟨rfl, rfl, ?_, rfl, rfl, ?_⟩ <;>
    simp [fromJObject, fromLocalRef, QJniObjectPrivate.destruct]

/-- Claim C2: through the member-ID caches, the resolution routine runs at
most once per key: a cached key is answered from the cache (state untouched,
no resolution), and a missing key is resolved exactly once, after which the
outcome -- the null not-found ID included -- is cached and every later lookup
of that key, with any resolver, environment, class handle or static flag,
returns it without resolving. -/
theorem claim_C2_member_resolution_at_most_once
    (resolveRaw : Bool → JRef → String → String → JMemberID × Bool)
    (env : JniEnv) (cache : Cache JMemberID) (clazz : JRef)
    (className name signature : String) (isStatic : Bool)
    (hcn : className ≠ "") :
    (∀ v, Cache.find? cache (memberKey className name signature) = some v →
      getCachedMethodID resolveRaw id env cache clazz className name signature isStatic
        = ⟨v, cache, env, [.lockShared, .unlockShared]⟩ ∧
      getCachedFieldID resolveRaw id env cache clazz className name signature isStatic
        = ⟨v, cache, env, [.lockShared, .unlockShared]⟩) ∧
    (Cache.find? cache (memberKey className name signature) = none →
      (let r := getCachedMethodID resolveRaw id env cache clazz className name
          signature isStatic
       r.events.count .resolveMember = 1 ∧
       Cache.find? r.cache (memberKey className name signature) = some r.id ∧
       ∀ rr2 env2 clazz2 st2,
         getCachedMethodID rr2 id env2 r.cache clazz2 className name signature st2
           = ⟨r.id, r.cache, env2, [.lockShared, .unlockShared]⟩) ∧
      (let f := getCachedFieldID resolveRaw id env cache clazz className name
          signature isStatic
       f.events.count .resolveMember = 1 ∧
       Cache.find? f.cache (memberKey className name signature) = some f.id ∧
       ∀ rr2 env2 clazz2 st2,
         getCachedFieldID rr2 id env2 f.cache clazz2 className name signature st2
           = ⟨f.id, f.cache, env2, [.lockShared, .unlockShared]⟩)) := by
  constructor
  · intro v hv
    constructor
    · simp [getCachedMethodID, hcn, hv]
    · simp [getCachedFieldID, hcn, hv]
  · intro h
    constructor
    · refine ⟨by simp [getCachedMethodID, hcn, h]; rfl, ?_, ?_⟩
      · simp [getCachedMethodID, hcn, h, Cache.find_insert_self]
      · intro rr2 env2 clazz2 st2
        simp [getCachedMethodID, hcn, h, Cache.find_insert_self]
    · refine ⟨by simp [getCachedFieldID, hcn, h]; rfl, ?_, ?_⟩
      · simp [getCachedFieldID, hcn, h, Cache.find_insert_self]
      · intro rr2 env2 clazz2 st2
        simp [getCachedFieldID, hcn, h, Cache.find_insert_self]

/-- Witness for claim C2: a first lookup whose resolution throws caches the
null not-found ID; the repeated lookup (even with a resolver that would now
succeed) is answered from the cache. -/
theorem claim_C2_witness :
    ((getCachedMethodID (fun _ _ _ _ => (none, true)) id ({} : JniEnv) [] (some 3)
        "java.lang.String" "length" "()I" false).events.count .resolveMember = 1) ∧
    (getCachedMethodID (fun _ _ _ _ => (some 9, false)) id ({} : JniEnv)
        (getCachedMethodID (fun _ _ _ _ => (none, true)) id ({} : JniEnv) [] (some 3)
          "java.lang.String" "length" "()I" false).cache (some 3)
        "java.lang.String" "length" "()I" false
      = ⟨(getCachedMethodID (fun _ _ _ _ => (none, true)) id ({} : JniEnv) [] (some 3)
            "java.lang.String" "length" "()I" false).id,
         (getCachedMethodID (fun _ _ _ _ => (none, true)) id ({} : JniEnv) [] (some 3)
            "java.lang.String" "length" "()I" false).cache,
         ({} : JniEnv), [.lockShared, .unlockShared]⟩) := by
  have h := claim_C2_member_resolution_at_most_once (fun _ _ _ _ => (none, true))
    ({} : JniEnv) [] (some 3) "java.lang.String" "length" "()I" false (by decide)
  have h2 := h.2 (by rfl)
  exact ⟨h2.1.1, h2.1.2.2 (fun _ _ _ _ => (some 9, false)) ({} : JniEnv) (some 3) false⟩

/-- Claim C3: when class resolution fails (the class-loader invocation yields
no class or throws), the null sentinel itself is inserted into the class
cache, so the expensive resolution runs only on the first attempt and every
subsequent lookup of that name -- through `loadClass` or
`QtAndroidPrivate::findClass`, with any oracle -- returns the cached null
without resolving again. -/
theorem claim_C3_failed_class_lookup_cached
    (clOutcome : String → JRef × Bool) (env : JniEnv) (cache : Cache JRef)
    (className : String)
    (hmiss : Cache.find? cache (toBinaryEncClassName className) = none)
    (hfail : (clOutcome (toBinaryEncClassName className)).1 = none ∨
             (clOutcome (toBinaryEncClassName className)).2 = true) :
    let r := loadClass clOutcome true env cache className false
    r.clazz = none ∧ r.resolutions = 1 ∧
    Cache.find? r.cache (toBinaryEncClassName className) = some none ∧
    (∀ clO2 clv2 env2,
      loadClass clO2 clv2 env2 r.cache className false = ⟨none, r.cache, env2, 0⟩) ∧
    (∀ fc2 clO2 clv2 he2 env2,
      findClass fc2 clO2 clv2 he2 env2 r.cache className = ⟨none, r.cache, env2, 0⟩) := by
  have hnull : (loadClass clOutcome true env cache className false).clazz = none ∧
      (loadClass clOutcome true env cache className false).cache
        = Cache.insert cache (toBinaryEncClassName className) none ∧
      (loadClass clOutcome true env cache className false).resolutions = 1 := by
    rcases hfail with hf | hf
    · simp [loadClass, getCachedClass, hmiss, hf]
    · simp [loadClass, getCachedClass, hmiss, hf, noteThrown, checkAndClearExceptions]
  refine ⟨hnull.1, hnull.2.2, ?_, ?_, ?_⟩
  · rw [hnull.2.1]
    exact Cache.find_insert_self _ _ _
  · intro clO2 clv2 env2
    rw [hnull.2.1]
    simp [loadClass, getCachedClass, Cache.find_insert_self]
  · intro fc2 clO2 clv2 he2 env2
    rw [hnull.2.1]
    simp [findClass, getCachedClass, Cache.find_insert_self]

/-- Witness for claim C3 at a concrete missing class. -/
theorem claim_C3_witness :
    (loadClass (fun _ => (none, false)) true ({} : JniEnv) [] "no/Such" false).clazz
      = none ∧
    (loadClass (fun _ => (none, false)) true ({} : JniEnv) [] "no/Such" false).resolutions
      = 1 ∧
    loadClass (fun _ => (some 5, false)) true ({} : JniEnv)
        (loadClass (fun _ => (none, false)) true ({} : JniEnv) [] "no/Such" false).cache
        "no/Such" false
      = ⟨none,
         (loadClass (fun _ => (none, false)) true ({} : JniEnv) [] "no/Such" false).cache,
         ({} : JniEnv), 0⟩ := by
  have h := claim_C3_failed_class_lookup_cached (fun _ => (none, false)) ({} : JniEnv)
    [] "no/Such" (by rfl) (Or.inl (by rfl))
  exact ⟨h.1, h.2.1, h.2.2.2.1 (fun _ => (some 5, false)) true ({} : JniEnv)⟩

theorem loadClass_false_eq_true (clO : String → JRef × Bool) (clv : Bool)
    (env : JniEnv) (cache : Cache JRef) (cn : String) :
    loadClass clO clv env cache cn false
      = loadClass clO clv env cache (toBinaryEncClassName cn) true := rfl

theorem loadClass_true_insertOnlyStep (clO : String → JRef × Bool) (clv : Bool)
    (env : JniEnv) (cache : Cache JRef) (cn : String) :
    insertOnlyStep cache (loadClass clO clv env cache cn true).cache := by
  rcases hfind : Cache.find? cache cn with _ | v
  · cases clv
    · exact Or.inl (by simp [loadClass, getCachedClass, hfind])
    · refine Or.inr ⟨cn, (loadClass clO true env cache cn true).clazz, hfind, ?_⟩
      simp [loadClass, getCachedClass, hfind]
  · exact Or.inl (by simp [loadClass, getCachedClass, hfind])

theorem loadClass_insertOnlyStep (clO : String → JRef × Bool) (clv : Bool)
    (env : JniEnv) (cache : Cache JRef) (cn : String) (be : Bool) :
    insertOnlyStep cache (loadClass clO clv env cache cn be).cache := by
  cases be
  · rw [loadClass_false_eq_true]
    exact loadClass_true_insertOnlyStep clO clv env cache (toBinaryEncClassName cn)
  · exact loadClass_true_insertOnlyStep clO clv env cache cn

theorem findClass_insertOnlyStep (fc clO : String → JRef × Bool) (clv he : Bool)
    (env : JniEnv) (cache : Cache JRef) (cn : String) :
    insertOnlyStep cache (findClass fc clO clv he env cache cn).cache := by
  rcases hfind : Cache.find? cache (toBinaryEncClassName cn) with _ | v
  · cases he
    · have h := loadClass_true_insertOnlyStep clO clv env cache (toBinaryEncClassName cn)
      simpa [findClass, getCachedClass, hfind] using h
    · rcases hg : findClassEnvAttempt fc env cn with ⟨gc, genv⟩
      rcases gc with _ | o
      · have h := loadClass_true_insertOnlyStep clO clv genv cache (toBinaryEncClassName cn)
        simpa [findClass, getCachedClass, hfind, hg] using h
      · refine Or.inr ⟨toBinaryEncClassName cn, some o, hfind, ?_⟩
        simp [findClass, getCachedClass, hfind, hg]
  · exact Or.inl (by simp [findClass, getCachedClass, hfind])

theorem getCachedMethodID_insertOnlyStep
    (rr : Bool → JRef → String → String → JMemberID × Bool)
    (env : JniEnv) (cache : Cache JMemberID) (clazz : JRef)
    (cn n s : String) (st : Bool) :
    insertOnlyStep cache (getCachedMethodID rr id env cache clazz cn n s st).cache := by
  by_cases hcn : cn = ""
  · exact Or.inl (by simp [getCachedMethodID, hcn])
  · rcases hfind : Cache.find? cache (memberKey cn n s) with _ | v
    · refine Or.inr ⟨memberKey cn n s, (getMethodID rr env clazz n s st).1, hfind, ?_⟩
      simp [getCachedMethodID, hcn, hfind]
    · exact Or.inl (by simp [getCachedMethodID, hcn, hfind])

theorem getCachedFieldID_insertOnlyStep
    (rr : Bool → JRef → String → String → JMemberID × Bool)
    (env : JniEnv) (cache : Cache JMemberID) (clazz : JRef)
    (cn n s : String) (st : Bool) :
    insertOnlyStep cache (getCachedFieldID rr id env cache clazz cn n s st).cache := by
  by_cases hcn : cn = ""
  · exact Or.inl (by simp [getCachedFieldID, hcn])
  · rcases hfind : Cache.find? cache (memberKey cn n s) with _ | v
    · refine Or.inr ⟨memberKey cn n s, (getFieldID rr env clazz n s st).1, hfind, ?_⟩
      simp [getCachedFieldID, hcn, hfind]
    · exact Or.inl (by simp [getCachedFieldID, hcn, hfind])

/-- Claim C4: every operation on the three global caches either leaves the
cache unchanged (a read) or inserts one entry under a previously absent key;
consequently every existing entry survives every operation unchanged -- no
entry is ever mutated or removed. -/
theorem claim_C4_caches_insert_only :
    (∀ clO clv env cache cn be,
      insertOnlyStep cache (loadClass clO clv env cache cn be).cache ∧
      cacheExtends (loadClass clO clv env cache cn be).cache cache) ∧
    (∀ fc clO clv he env cache cn,
      insertOnlyStep cache (findClass fc clO clv he env cache cn).cache ∧
      cacheExtends (findClass fc clO clv he env cache cn).cache cache) ∧
    (∀ rr env cache clazz cn n s st,
      insertOnlyStep cache (getCachedMethodID rr id env cache clazz cn n s st).cache ∧
      cacheExtends (getCachedMethodID rr id env cache clazz cn n s st).cache cache) ∧
    (∀ rr env cache clazz cn n s st,
      insertOnlyStep cache (getCachedFieldID rr id env cache clazz cn n s st).cache ∧
      cacheExtends (getCachedFieldID rr id env cache clazz cn n s st).cache cache) := by
  refine ⟨fun clO clv env cache cn be => ?_, fun fc clO clv he env cache cn => ?_,
    fun rr env cache clazz cn n s st => ?_, fun rr env cache clazz cn n s st => ?_⟩
  · exact ⟨loadClass_insertOnlyStep clO clv env cache cn be,
      cacheExtends_of_insertOnlyStep (loadClass_insertOnlyStep clO clv env cache cn be)⟩
  · exact ⟨findClass_insertOnlyStep fc clO clv he env cache cn,
      cacheExtends_of_insertOnlyStep (findClass_insertOnlyStep fc clO clv he env cache cn)⟩
  · exact ⟨getCachedMethodID_insertOnlyStep rr env cache clazz cn n s st,
      cacheExtends_of_insertOnlyStep
        (getCachedMethodID_insertOnlyStep rr env cache clazz cn n s st)⟩
  · exact ⟨getCachedFieldID_insertOnlyStep rr env cache clazz cn n s st,
      cacheExtends_of_insertOnlyStep
        (getCachedFieldID_insertOnlyStep rr env cache clazz cn n s st)⟩

/-- Witness for claim C4: an existing class-cache entry survives a lookup of a
different class. -/
theorem claim_C4_witness :
    Cache.find? (loadClass (fun _ => (some 5, false)) true ({} : JniEnv)
        [("a.B", some 1)] "c.D" true).cache "a.B" = some (some 1) :=
  (claim_C4_caches_insert_only.1 (fun _ => (some 5, false)) true ({} : JniEnv)
    [("a.B", some 1)] "c.D" true).2 "a.B" (some 1) (by decide)

theorem loadClassTraced_id_eq (clO : String → JRef × Bool) (clv : Bool) (env : JniEnv)
    (cache : Cache JRef) (cn : String) (be : Bool) :
    (loadClassTraced clO clv id env cache cn be).1 = loadClass clO clv env cache cn be := by
  rcases h1 : Cache.find? cache (if be then cn else toBinaryEncClassName cn) with _ | v
  · cases clv
    · simp [loadClassTraced, loadClass, getCachedClass, h1]
    · simp [loadClassTraced, loadClass, getCachedClass, h1]
  · simp [loadClassTraced, loadClass, getCachedClass, h1]

theorem findClassTraced_id_eq (fc clO : String → JRef × Bool) (clv he : Bool)
    (env : JniEnv) (cache : Cache JRef) (cn : String) :
    (findClassTraced fc clO clv he id id env cache cn).1
      = findClass fc clO clv he env cache cn := by
  rcases h1 : Cache.find? cache (toBinaryEncClassName cn) with _ | v
  · cases he
    · simp [findClassTraced, findClass, getCachedClass, h1, loadClassTraced_id_eq]
    · rcases hg : findClassEnvAttempt fc env cn with ⟨gc, genv⟩
      rcases gc with _ | o
      · simp [findClassTraced, findClass, getCachedClass, h1, hg, loadClassTraced_id_eq]
      · simp [findClassTraced, findClass, getCachedClass, h1, hg]
  · simp [findClassTraced, findClass, getCachedClass, h1]

theorem loadClassTraced_events_shapes (clO : String → JRef × Bool) (clv : Bool)
    (race : Cache JRef → Cache JRef) (env : JniEnv) (cache : Cache JRef) (cn : String) :
    (loadClassTraced clO clv race env cache cn true).2 = [.lockShared, .unlockShared] ∨
    (loadClassTraced clO clv race env cache cn true).2
      = [.lockShared, .unlockShared, .lockExclusive, .unlockExclusive] ∨
    (loadClassTraced clO clv race env cache cn true).2
      = [.lockShared, .unlockShared, .lockExclusive, .resolveMember, .insertEntry,
          .unlockExclusive] := by
  rcases h1 : Cache.find? cache cn with _ | v1
  · cases clv
    · exact Or.inl (by simp [loadClassTraced, getCachedClass, h1])
    · rcases h2 : Cache.find? (race cache) cn with _ | v2
      · exact Or.inr (Or.inr (by simp [loadClassTraced, getCachedClass, h1, h2]))
      · exact Or.inr (Or.inl (by simp [loadClassTraced, getCachedClass, h1, h2]))
  · exact Or.inl (by simp [loadClassTraced, getCachedClass, h1])

theorem loadClassTraced_head (clO : String → JRef × Bool) (clv : Bool)
    (race : Cache JRef → Cache JRef) (env : JniEnv) (cache : Cache JRef) (cn : String) :
    ((loadClassTraced clO clv race env cache cn true).2).head? = some .lockShared := by
  rcases loadClassTraced_events_shapes clO clv race env cache cn with h | h | h <;>
    rw [h] <;> rfl

theorem loadClassTraced_resolve_le_one (clO : String → JRef × Bool) (clv : Bool)
    (race : Cache JRef → Cache JRef) (env : JniEnv) (cache : Cache JRef) (cn : String) :
    ((loadClassTraced clO clv race env cache cn true).2).count .resolveMember ≤ 1 := by
  rcases loadClassTraced_events_shapes clO clv race env cache cn with h | h | h <;>
    rw [h] <;> decide

theorem loadClassTraced_insert_le_one (clO : String → JRef × Bool) (clv : Bool)
    (race : Cache JRef → Cache JRef) (env : JniEnv) (cache : Cache JRef) (cn : String) :
    ((loadClassTraced clO clv race env cache cn true).2).count .insertEntry ≤ 1 := by
  rcases loadClassTraced_events_shapes clO clv race env cache cn with h | h | h <;>
    rw [h] <;> decide

/-- Claim C8: under the interleaving model -- lock sections are atomic, and
the `race` functions are whatever concurrent insert-only writers did to the
cache between one thread's critical sections -- every cache lookup first
takes the shared (read) lock, retries under the exclusive (write) lock on a
miss before resolving, resolves and inserts at most once per double-checked
section, performs the resolution exactly once on a genuine miss, and a
thread that loses the race on a key performs no resolution and inserts
nothing.  Stated for all three caches: the method-ID cache and the field-ID
cache (`getCachedMethodID` / `getCachedFieldID`), and the class cache --
`getCachedClass`'s read-locked lookup followed by the write-locked rechecks
of `loadClass` and `QtAndroidPrivate::findClass`, whose traced embeddings
(`loadClassTraced`, `findClassTraced`) are proven to coincide with the
sequential embeddings when no writer interferes.  In `findClass` the
`FindClass` attempt and the `loadClass` fallback are two resolution attempts
of one call by design; the racing guarantees are that a lost race resolves
and inserts nothing and that at most one entry is ever inserted. -/
theorem claim_C8_double_checked_locking
    (rr : Bool → JRef → String → String → JMemberID × Bool)
    (race : Cache JMemberID → Cache JMemberID)
    (env : JniEnv) (cache : Cache JMemberID) (clazz : JRef)
    (cn n s : String) (st : Bool) (hcn : cn ≠ "") :
    (let r := getCachedMethodID rr race env cache clazz cn n s st
     (r.events = [.lockShared, .unlockShared] ∨
      r.events = [.lockShared, .unlockShared, .lockExclusive, .unlockExclusive] ∨
      r.events = [.lockShared, .unlockShared, .lockExclusive, .resolveMember,
        .insertEntry, .unlockExclusive]) ∧
     r.events.count .resolveMember ≤ 1 ∧
     r.events.count .insertEntry ≤ 1 ∧
     (Cache.find? cache (memberKey cn n s) = none →
       Cache.find? (race cache) (memberKey cn n s) = none →
         r.events.count .resolveMember = 1 ∧
         r.cache = Cache.insert (race cache) (memberKey cn n s) r.id) ∧
     (∀ v, Cache.find? cache (memberKey cn n s) = none →
       Cache.find? (race cache) (memberKey cn n s) = some v →
         r.id = v ∧ r.events.count .resolveMember = 0 ∧ r.cache = race cache)) ∧
    (let f := getCachedFieldID rr race env cache clazz cn n s st
     (f.events = [.lockShared, .unlockShared] ∨
      f.events = [.lockShared, .unlockShared, .lockExclusive, .unlockExclusive] ∨
      f.events = [.lockShared, .unlockShared, .lockExclusive, .resolveMember,
        .insertEntry, .unlockExclusive]) ∧
     f.events.count .resolveMember ≤ 1 ∧
     f.events.count .insertEntry ≤ 1 ∧
     (Cache.find? cache (memberKey cn n s) = none →
       Cache.find? (race cache) (memberKey cn n s) = none →
         f.events.count .resolveMember = 1 ∧
         f.cache = Cache.insert (race cache) (memberKey cn n s) f.id) ∧
     (∀ v, Cache.find? cache (memberKey cn n s) = none →
       Cache.find? (race cache) (memberKey cn n s) = some v →
         f.id = v ∧ f.events.count .resolveMember = 0 ∧ f.cache = race cache)) ∧
    (∀ clO clv crace cenv ccache ccn,
      (∀ cbe, (loadClassTraced clO clv id cenv ccache ccn cbe).1
        = loadClass clO clv cenv ccache ccn cbe) ∧
      loadClassTraced clO clv crace cenv ccache ccn false
        = loadClassTraced clO clv crace cenv ccache (toBinaryEncClassName ccn) true ∧
      (let p := loadClassTraced clO clv crace cenv ccache ccn true
       (p.2 = [.lockShared, .unlockShared] ∨
        p.2 = [.lockShared, .unlockShared, .lockExclusive, .unlockExclusive] ∨
        p.2 = [.lockShared, .unlockShared, .lockExclusive, .resolveMember, .insertEntry,
          .unlockExclusive]) ∧
       p.2.count .resolveMember ≤ 1 ∧
       p.2.count .insertEntry ≤ 1 ∧
       (Cache.find? ccache ccn = none → Cache.find? (crace ccache) ccn = none →
         clv = true →
           p.2.count .resolveMember = 1 ∧
           p.1.cache = Cache.insert (crace ccache) ccn p.1.clazz) ∧
       (∀ v, Cache.find? ccache ccn = none →
         Cache.find? (crace ccache) ccn = some v → clv = true →
           p.1.clazz = v ∧ p.2.count .resolveMember = 0 ∧ p.1.cache = crace ccache))) ∧
    (∀ fc clO clv he r1 r2 fenv fcache fcn,
      let q := findClassTraced fc clO clv he r1 r2 fenv fcache fcn
      (findClassTraced fc clO clv he id id fenv fcache fcn).1
        = findClass fc clO clv he fenv fcache fcn ∧
      q.2.head? = some .lockShared ∧
      q.2.count .insertEntry ≤ 1 ∧
      (∀ v, Cache.find? fcache (toBinaryEncClassName fcn) = some v →
        q = (⟨v, fcache, fenv, 0⟩, [.lockShared, .unlockShared])) ∧
      (∀ v, Cache.find? fcache (toBinaryEncClassName fcn) = none → he = true →
        Cache.find? (r1 fcache) (toBinaryEncClassName fcn) = some v →
          q.1.clazz = v ∧ q.1.resolutions = 0 ∧ q.1.cache = r1 fcache ∧
          q.2.count .resolveMember = 0)) := by
  refine ⟨?_, ?_, ?_, ?_⟩
  · rcases h1 : Cache.find? cache (memberKey cn n s) with _ | v1
    · rcases h2 : Cache.find? (race cache) (memberKey cn n s) with _ | v2
      · refine ⟨?_, ?_, ?_, ?_, ?_⟩ <;>
          simp [getCachedMethodID, hcn, h1, h2, List.count_cons] <;> decide
      · refine ⟨?_, ?_, ?_, ?_, ?_⟩ <;>
          simp [getCachedMethodID, hcn, h1, h2, List.count_cons] <;> decide
    · refine ⟨?_, ?_, ?_, ?_, ?_⟩ <;>
        simp [getCachedMethodID, hcn, h1, List.count_cons] <;> decide
  · rcases h1 : Cache.find? cache (memberKey cn n s) with _ | v1
    · rcases h2 : Cache.find? (race cache) (memberKey cn n s) with _ | v2
      · refine ⟨?_, ?_, ?_, ?_, ?_⟩ <;>
          simp [getCachedFieldID, hcn, h1, h2, List.count_cons] <;> decide
      · refine ⟨?_, ?_, ?_, ?_, ?_⟩ <;>
          simp [getCachedFieldID, hcn, h1, h2, List.count_cons] <;> decide
    · refine ⟨?_, ?_, ?_, ?_, ?_⟩ <;>
        simp [getCachedFieldID, hcn, h1, List.count_cons] <;> decide
  · intro clO clv crace cenv ccache ccn
    refine ⟨fun cbe => loadClassTraced_id_eq clO clv cenv ccache ccn cbe, rfl,
      loadClassTraced_events_shapes clO clv crace cenv ccache ccn,
      loadClassTraced_resolve_le_one clO clv crace cenv ccache ccn,
      loadClassTraced_insert_le_one clO clv crace cenv ccache ccn, ?_, ?_⟩
    · intro hm1 hm2 hclv
      subst hclv
      constructor <;>
        simp [loadClassTraced, getCachedClass, hm1, hm2, List.count_cons] <;> try decide
    · intro v hm1 hm2 hclv
      subst hclv
      refine ⟨?_, ?_, ?_⟩ <;>
        simp [loadClassTraced, getCachedClass, hm1, hm2, List.count_cons] <;> try decide
  · intro fc clO clv he r1 r2 fenv fcache fcn
    refine ⟨findClassTraced_id_eq fc clO clv he fenv fcache fcn, ?_, ?_, ?_, ?_⟩
    · rcases h1 : Cache.find? fcache (toBinaryEncClassName fcn) with _ | v1
      · cases he
        · have h := loadClassTraced_head clO clv r2 fenv fcache (toBinaryEncClassName fcn)
          simpa [findClassTraced, getCachedClass, h1] using h
        · rcases h2 : Cache.find? (r1 fcache) (toBinaryEncClassName fcn) with _ | v2
          · rcases hg : findClassEnvAttempt fc fenv fcn with ⟨gc, genv⟩
            rcases gc with _ | o
            · simp [findClassTraced, getCachedClass, h1, h2, hg, List.cons_append]
            · simp [findClassTraced, getCachedClass, h1, h2, hg]
          · simp [findClassTraced, getCachedClass, h1, h2]
      · simp [findClassTraced, getCachedClass, h1]
    · rcases h1 : Cache.find? fcache (toBinaryEncClassName fcn) with _ | v1
      · cases he
        · have h := loadClassTraced_insert_le_one clO clv r2 fenv fcache
            (toBinaryEncClassName fcn)
          simpa [findClassTraced, getCachedClass, h1] using h
        · rcases h2 : Cache.find? (r1 fcache) (toBinaryEncClassName fcn) with _ | v2
          · rcases hg : findClassEnvAttempt fc fenv fcn with ⟨gc, genv⟩
            rcases gc with _ | o
            · have hlc := loadClassTraced_insert_le_one clO clv r2 genv (r1 fcache)
                (toBinaryEncClassName fcn)
              have hstep : ∀ (y : LockEvent) (t : List LockEvent),
                  (y == LockEvent.insertEntry) = false →
                  List.count LockEvent.insertEntry (y :: t)
                    = List.count LockEvent.insertEntry t := by
                intro y t h
                simp [List.count_cons, h]
              simp only [findClassTraced, getCachedClass, h1, h2, hg]
              simp only [Option.isSome_none, Bool.or_false, Bool.false_eq_true, if_false,
                if_true, List.cons_append, List.nil_append]
              rw [hstep _ _ (by decide), hstep _ _ (by decide), hstep _ _ (by decide),
                hstep _ _ (by decide), hstep _ _ (by decide)]
              exact hlc
            · simp [findClassTraced, getCachedClass, h1, h2, hg] <;> decide
          · simp [findClassTraced, getCachedClass, h1, h2] <;> decide
      · simp [findClassTraced, getCachedClass, h1] <;> decide
    · intro v hv
      simp [findClassTraced, getCachedClass, hv]
    · intro v h1 hhe h2
      subst hhe
      refine ⟨?_, ?_, ?_, ?_⟩ <;>
        simp [findClassTraced, getCachedClass, h1, h2, List.count_cons] <;> try decide

/-- Witness for claim C8: a member-ID lookup and a class lookup that lose the
race to a concurrent writer return the raced entry, resolve nothing, and
insert nothing. -/
theorem claim_C8_witness :
    ((getCachedMethodID (fun _ _ _ _ => (some 9, false))
        (fun c => Cache.insert c (memberKey "a.B" "m" "()I") (some 4))
        ({} : JniEnv) [] (some 3) "a.B" "m" "()I" false).id = some 4 ∧
     (getCachedMethodID (fun _ _ _ _ => (some 9, false))
        (fun c => Cache.insert c (memberKey "a.B" "m" "()I") (some 4))
        ({} : JniEnv) [] (some 3) "a.B" "m" "()I" false).events.count .resolveMember = 0 ∧
     (getCachedMethodID (fun _ _ _ _ => (some 9, false))
        (fun c => Cache.insert c (memberKey "a.B" "m" "()I") (some 4))
        ({} : JniEnv) [] (some 3) "a.B" "m" "()I" false).cache
       = Cache.insert [] (memberKey "a.B" "m" "()I") (some 4)) ∧
    ((loadClassTraced (fun _ => (none, false)) true
        (fun c => Cache.insert c "p.Q" (some 6)) ({} : JniEnv) [] "p.Q" true).1.clazz
       = some 6 ∧
     ((loadClassTraced (fun _ => (none, false)) true
        (fun c => Cache.insert c "p.Q" (some 6))
        ({} : JniEnv) [] "p.Q" true).2).count .resolveMember = 0 ∧
     (loadClassTraced (fun _ => (none, false)) true
        (fun c => Cache.insert c "p.Q" (some 6)) ({} : JniEnv) [] "p.Q" true).1.cache
       = Cache.insert [] "p.Q" (some 6)) :=
  ⟨(claim_C8_double_checked_locking (fun _ _ _ _ => (some 9, false))
      (fun c => Cache.insert c (memberKey "a.B" "m" "()I") (some 4))
      ({} : JniEnv) [] (some 3) "a.B" "m" "()I" false (by decide)).1.2.2.2.2
      (some 4) (by rfl) (by rfl),
   ((claim_C8_double_checked_locking (fun _ _ _ _ => (some 9, false))
      (fun c => Cache.insert c (memberKey "a.B" "m" "()I") (some 4))
      ({} : JniEnv) [] (some 3) "a.B" "m" "()I" false (by decide)).2.2.1
      (fun _ => (none, false)) true (fun c => Cache.insert c "p.Q" (some 6))
      ({} : JniEnv) [] "p.Q").2.2.2.2.2.2
      (some 6) (by rfl) (by rfl) rfl⟩

theorem getMethodID_refcount (rr : Bool → JRef → String → String → JMemberID × Bool)
    (env : JniEnv) (clazz : JRef) (n s : String) (st : Bool) :
    (getMethodID rr env clazz n s st).2.globalRefCount = env.globalRefCount := rfl

theorem getCachedMethodID_refcount (rr : Bool → JRef → String → String → JMemberID × Bool)
    (race : Cache JMemberID → Cache JMemberID) (env : JniEnv)
    (cache : Cache JMemberID) (clazz : JRef) (cn n s : String) (st : Bool) :
    (getCachedMethodID rr race env cache clazz cn n s st).env.globalRefCount
      = env.globalRefCount := by
  by_cases hcn : cn = ""
  · simp [getCachedMethodID, hcn, getMethodID, noteThrown, checkAndClearExceptions]
  · rcases h1 : Cache.find? cache (memberKey cn n s) with _ | v
    · rcases h2 : Cache.find? (race cache) (memberKey cn n s) with _ | v2
      · simp [getCachedMethodID, hcn, h1, h2, getMethodID, noteThrown,
          checkAndClearExceptions]
      · simp [getCachedMethodID, hcn, h1, h2]
    · simp [getCachedMethodID, hcn, h1]

theorem loadClass_ref_balance_true (clO : String → JRef × Bool) (clv : Bool)
    (env : JniEnv) (cache : Cache JRef) (cn : String) :
    (loadClass clO clv env cache cn true).env.globalRefCount + cacheHeldRefs cache
      = env.globalRefCount + cacheHeldRefs (loadClass clO clv env cache cn true).cache := by
  rcases hfind : Cache.find? cache cn with _ | v
  · cases clv
    · simp [loadClass, getCachedClass, hfind]
    · rcases hout : clO cn with ⟨co, thr⟩
      rcases co with _ | o
      · simp [loadClass, getCachedClass, hfind, hout, noteThrown,
          checkAndClearExceptions, cacheHeldRefs, Cache.insert]
      · by_cases hexn : (env.pendingException || thr) = true
        · simp [loadClass, getCachedClass, hfind, hout, noteThrown,
            checkAndClearExceptions, hexn, cacheHeldRefs, Cache.insert]
        · simp [loadClass, getCachedClass, hfind, hout, noteThrown,
            checkAndClearExceptions, hexn, newGlobalRef, cacheHeldRefs, Cache.insert]
          omega
  · simp [loadClass, getCachedClass, hfind]

/-- Claim C5: a wrapper bound through `QJniObject(const char *)` never owns
its class reference (it comes from the shared class cache, so the destructor
does not release it), destruction releases exactly the references the
wrapper retains -- once each, no double release -- and every global reference
the construction acquired is accounted for either by the class cache or by
the wrapper (no leak), on every early-return path.  A wrapper bound through
`QJniObject(jobject)` owns both its references, and destruction releases
exactly those two. -/
theorem claim_C5_destructor_releases_exactly_once :
    (∀ clO clv rr no env cc mc cn,
      let r := ctorFromClassName clO clv rr no env cc mc cn
      r.d.m_own_jclass = false ∧
      (r.d.destruct r.env).globalRefCount + wrapperRetainedRefs r.d
        = r.env.globalRefCount ∧
      r.env.globalRefCount + cacheHeldRefs cc
        = env.globalRefCount + cacheHeldRefs r.classCache + wrapperRetainedRefs r.d) ∧
    (∀ classOf env o,
      (fromJObject classOf env (some o)).1.m_own_jclass = true ∧
      wrapperRetainedRefs (fromJObject classOf env (some o)).1 = 2 ∧
      ((fromJObject classOf env (some o)).1.destruct
          (fromJObject classOf env (some o)).2).globalRefCount + 2
        = (fromJObject classOf env (some o)).2.globalRefCount ∧
      (fromJObject classOf env (some o)).2.globalRefCount = env.globalRefCount + 2) := by
  constructor
  · intro clO clv rr no env cc mc cn
    have hbal := loadClass_ref_balance_true clO clv env cc (toBinaryEncClassName cn)
    simp only [ctorFromClassName]
    set L := loadClass clO clv env cc (toBinaryEncClassName cn) true with hL
    have hmc := getCachedMethodID_refcount rr id L.env mc L.clazz
      (toBinaryEncClassName cn) "<init>" "()V" false
    rcases hcl : L.clazz with _ | c
    · rw [hcl] at hmc
      simp only [hcl, Option.isSome_none, Bool.false_eq_true, if_false]
      refine ⟨trivial, ?_, ?_⟩
      · simp [QJniObjectPrivate.destruct, wrapperRetainedRefs]
      · simp [wrapperRetainedRefs]
        omega
    · rw [hcl] at hmc
      simp only [hcl, Option.isSome_some, if_true]
      set M := getCachedMethodID rr id L.env mc (some c)
        (toBinaryEncClassName cn) "<init>" "()V" false with hM
      rcases hmid : M.id with _ | mid
      · simp only [hmid, Option.isSome_none, Bool.false_eq_true, if_false]
        refine ⟨trivial, ?_, ?_⟩
        · simp [QJniObjectPrivate.destruct, wrapperRetainedRefs]
        · simp [wrapperRetainedRefs]
          omega
      · simp only [hmid, Option.isSome_some, if_true]
        rcases hobj : no.1 with _ | o
        · simp only [hobj]
          refine ⟨trivial, ?_, ?_⟩
          · simp [QJniObjectPrivate.destruct, wrapperRetainedRefs]
          · simp [wrapperRetainedRefs, noteThrown]
            omega
        · simp only [hobj]
          refine ⟨trivial, ?_, ?_⟩
          · simp [QJniObjectPrivate.destruct, wrapperRetainedRefs, newGlobalRef,
              deleteGlobalRef, noteThrown]
          · simp [wrapperRetainedRefs, newGlobalRef, noteThrown]
            omega
  · intro classOf env o
    refine ⟨rfl, rfl, ?_, ?_⟩
    · simp [fromJObject, newGlobalRef, wrapperRetainedRefs, QJniObjectPrivate.destruct,
        deleteGlobalRef]
    · simp [fromJObject, newGlobalRef]

/-- Claim C7: for every primitive type, the no-argument convenience
operations use exactly the canonical single-letter descriptor of the
descriptor grammar (`Z`, `B`, `C`, `S`, `I`, `J`, `F`, `D`; method form
`"()X"`), and each behaves identically to the corresponding
explicit-signature operation called with that descriptor. -/
theorem claim_C7_canonical_primitive_descriptors :
    (∀ t, methodNoArgSignature t = "()" ++ specPrimitiveDescriptor t) ∧
    (∀ t, fieldSignature t = specPrimitiveDescriptor t) ∧
    (∀ t rr co d env mc mn,
      callMethodPrimNoArg t rr co d env mc mn
        = callMethodPrim t rr co d env mc mn ("()" ++ specPrimitiveDescriptor t)) ∧
    (∀ t clO clv rr co env cc mc cn mn,
      callStaticMethodPrimNoArg t clO clv rr co env cc mc cn mn
        = callStaticMethodPrim t clO clv rr co env cc mc cn mn
            ("()" ++ specPrimitiveDescriptor t)) ∧
    (∀ t rr go d env fc fn,
      getFieldPrim t rr go d env fc fn
        = getFieldPrimSig t rr go d env fc fn (specPrimitiveDescriptor t)) ∧
    (∀ t clO clv rr go env cc fc cn fn,
      getStaticFieldPrim t clO clv rr go env cc fc cn fn
        = getStaticFieldPrimSig t clO clv rr go env cc fc cn fn
            (specPrimitiveDescriptor t)) ∧
    (∀ t rr sth d env fc fn v,
      setFieldPrim t rr sth d env fc fn v
        = setFieldPrimSig t rr sth d env fc fn v (specPrimitiveDescriptor t)) ∧
    (∀ t clO clv rr sth env cc fc cn fn v,
      setStaticFieldPrim t clO clv rr sth env cc fc cn fn v
        = setStaticFieldPrimSig t clO clv rr sth env cc fc cn fn v
            (specPrimitiveDescriptor t)) := by
  refine ⟨?_, ?_, ?_, ?_, ?_, ?_, ?_, ?_⟩ <;> intro t <;> cases t <;> intros <;> rfl

end QtJni
